import Mathlib

/-!
Verification of the EpicServer file-sharing backend (`src/server.py`).

The server keeps two in-memory dictionaries:
  `users = {username: {'password': hash, 'files': []}}`
  `files = {filename: {'owner': username, 'shared_with': [usernames]}}`
and exposes register / login / list / upload / download / share / revoke /
delete endpoints.  We embed the metadata-mutating logic of each endpoint as a
pure function on an explicit state; Python dicts become association lists
(insertion order preserved, key update in place, like CPython dicts), Python
lists become Lean lists (`list.append` is `++ [x]`, `list.remove` is
`List.erase`, removing the first occurrence).  The HTTP / JWT plumbing is
abstracted: every protected endpoint receives the caller username that
`get_jwt_identity()` would return, and file content stored on disk is outside
the metadata model.
-/

/-- A stored user record: `users[username] = {'password': hashed, 'files': []}`
(server.py lines 73–76).  The `files` list is created empty at registration and
never written again anywhere in the source. -/
structure UserRec where
  password : String
  files : List String
deriving Repr, DecidableEq

/-- A stored file record: `files[filename] = {'owner': username,
'shared_with': [...]}` (server.py line 24). -/
structure FileRecord where
  owner : String
  shared_with : List String
deriving Repr, DecidableEq

/-- The server's mutable state: the `users` and `files` dictionaries
(server.py lines 23–24), as association lists keyed by name. -/
structure ServerState where
  users : List (String × UserRec)
  files : List (String × FileRecord)
deriving Repr, DecidableEq

/-- Error kinds of the spec's taxonomy, mapped from the JSON error responses:
`InvalidInput` (400 missing fields), `DuplicateUser` (400 username exists),
`AuthenticationFailed` (401), `NotFound` (404), `AccessDenied` (403), and
`InternalError` for an unhandled exception surfacing as a 500 — the spec maps
storage I/O failures to a generic internal failure distinct from the other
kinds.  The one such failure the code can deterministically hit is
`file.save` raising `IsADirectoryError` when the sanitized filename is empty
(server.py line 124: the path is then the `uploads` directory itself). -/
inductive Err where
  | invalidInput
  | duplicateUser
  | authenticationFailed
  | notFound
  | accessDenied
  | internalError
deriving Repr, DecidableEq

instance : DecidableEq (Except Err Unit) := fun a b =>
  match a, b with
  | .ok (), .ok () => isTrue rfl
  | .error e1, .error e2 =>
    match decEq e1 e2 with
    | isTrue h => isTrue (h ▸ rfl)
    | isFalse h => isFalse (fun hh => h (by cases hh; rfl))
  | .ok _, .error _ => isFalse (fun hh => by cases hh)
  | .error _, .ok _ => isFalse (fun hh => by cases hh)

/-- Dictionary lookup: `d.get(k)` / `k in d`. -/
def lookupKey {α : Type} (k : String) : List (String × α) → Option α
  | [] => none
  | (k', v) :: rest => if k' = k then some v else lookupKey k rest

/-- Dictionary assignment `d[k] = v`: updates the value in place if the key is
present (keeping its position, as CPython dicts do), otherwise appends. -/
def insertKey {α : Type} (k : String) (v : α) : List (String × α) → List (String × α)
  | [] => [(k, v)]
  | (k', v') :: rest => if k' = k then (k, v) :: rest else (k', v') :: insertKey k v rest

/-- Dictionary deletion `del d[k]`. -/
def eraseKey {α : Type} (k : String) (l : List (String × α)) : List (String × α) :=
  l.filter (fun p => p.1 ≠ k)

/-- Models `bcrypt.hashpw(password, gensalt())` as an abstract digest; no
property below depends on its value, only on what `register` stores. -/
def hashpw (password : String) : String := password

/-- Models `bcrypt.checkpw(password, stored)`. -/
def checkpw (password stored : String) : Bool := hashpw password = stored

/-- Models `werkzeug.utils.secure_filename` for ASCII filenames on POSIX:
replace `os.sep` (`/`) by a space, split on whitespace and rejoin with `_`,
drop every character outside `[A-Za-z0-9_.-]`, then strip leading and trailing
`.` and `_`.  (The NFKD/ASCII-encode step is the identity on ASCII input and
the Windows device-name branch is off on POSIX.) -/
def secure_filename (filename : String) : String :=
  let replaced := filename.toList.map (fun c => if c = '/' then ' ' else c)
  let parts := (replaced.splitOnP Char.isWhitespace).filter (fun t => t ≠ [])
  let joined := List.intercalate ['_'] parts
  let kept := joined.filter (fun c => c.isAlphanum ∨ c = '_' ∨ c = '.' ∨ c = '-')
  let front := kept.dropWhile (fun c => c = '.' ∨ c = '_')
  String.mk ((front.reverse.dropWhile (fun c => c = '.' ∨ c = '_')).reverse)

/-- Embeds `register` (server.py lines 59–79): missing field → 400, existing
username → 400, else store the hashed password with an empty file list. -/
def register (s : ServerState) (username password : String) :
    Except Err Unit × ServerState :=
  if username = "" ∨ password = "" then (.error .invalidInput, s)
  else if (lookupKey username s.users).isSome then (.error .duplicateUser, s)
  else (.ok (), { s with users := insertKey username ⟨hashpw password, []⟩ s.users })

/-- Embeds `login` (server.py lines 81–95): missing field → 400, unknown user
or hash mismatch → 401, else issue a token (the token itself is outside the
metadata model).  Never mutates state. -/
def login (s : ServerState) (username password : String) :
    Except Err Unit × ServerState :=
  if username = "" ∨ password = "" then (.error .invalidInput, s)
  else
    match lookupKey username s.users with
    | none => (.error .authenticationFailed, s)
    | some u =>
      if checkpw password u.password then (.ok (), s)
      else (.error .authenticationFailed, s)

/-- Embeds `get_files` (server.py lines 97–107): the `owned_files` and
`shared_files` comprehensions over the `files` dict. -/
def get_files (s : ServerState) (username : String) : List String × List String :=
  ((s.files.filter (fun p => p.2.owner = username)).map (fun p => p.1),
   (s.files.filter (fun p => username ∈ p.2.shared_with)).map (fun p => p.1))

/-- Embeds `upload_file` (server.py lines 109–132): no file part → 400, empty
raw filename → 400 (the check is on `file.filename`, before sanitization),
else `filename = secure_filename(file.filename)` and
`file.save(os.path.join('uploads', filename))` (line 124).  When the
sanitized filename is empty that path is `uploads/`, the upload directory
itself, and `file.save` raises `IsADirectoryError` — an unhandled exception
(500, modelled as `internalError`) before the metadata assignment at line
127, so no record is written.  Otherwise the save succeeds and
`files[filename] = {'owner': username, 'shared_with': []}`.  The `fileArg` is
`request.files['file'].filename` when a file part is present; other storage
I/O failures (disk full, permissions) are not modelled, as in the spec. -/
def upload_file (s : ServerState) (username : String) (fileArg : Option String) :
    Except Err Unit × ServerState :=
  match fileArg with
  | none => (.error .invalidInput, s)
  | some rawName =>
    if rawName = "" then (.error .invalidInput, s)
    else if secure_filename rawName = "" then (.error .internalError, s)
    else
      (.ok (), { s with
        files := insertKey (secure_filename rawName) ⟨username, []⟩ s.files })

/-- Embeds `download_file` (server.py lines 134–147): unknown file → 404,
caller neither owner nor in `shared_with` → 403, else serve the file
(read-only: state is never mutated). -/
def download_file (s : ServerState) (username filename : String) :
    Except Err Unit × ServerState :=
  match lookupKey filename s.files with
  | none => (.error .notFound, s)
  | some fd =>
    if fd.owner ≠ username ∧ username ∉ fd.shared_with then (.error .accessDenied, s)
    else (.ok (), s)

/-- Embeds `share_file` (server.py lines 149–172): missing field → 400,
unknown file → 404, caller not owner → 403, target not registered → 404, else
append the target to `shared_with` unless already present. -/
def share_file (s : ServerState) (username filename target : String) :
    Except Err Unit × ServerState :=
  if filename = "" ∨ target = "" then (.error .invalidInput, s)
  else
    match lookupKey filename s.files with
    | none => (.error .notFound, s)
    | some fd =>
      if fd.owner ≠ username then (.error .accessDenied, s)
      else if (lookupKey target s.users).isNone then (.error .notFound, s)
      else if target ∈ fd.shared_with then (.ok (), s)
      else
        (.ok (), { s with
          files := insertKey filename ⟨fd.owner, fd.shared_with ++ [target]⟩ s.files })

/-- Embeds `revoke_access` (server.py lines 174–194): missing field → 400,
unknown file → 404, caller not owner → 403, else remove the first occurrence
of the target from `shared_with` if present (no registered-user check). -/
def revoke_access (s : ServerState) (username filename target : String) :
    Except Err Unit × ServerState :=
  if filename = "" ∨ target = "" then (.error .invalidInput, s)
  else
    match lookupKey filename s.files with
    | none => (.error .notFound, s)
    | some fd =>
      if fd.owner ≠ username then (.error .accessDenied, s)
      else if target ∈ fd.shared_with then
        (.ok (), { s with
          files := insertKey filename ⟨fd.owner, fd.shared_with.erase target⟩ s.files })
      else (.ok (), s)

/-- Embeds `delete_file` (server.py lines 196–215): unknown file → 404, caller
not owner → 403, else remove the record (content removal is filesystem-side). -/
def delete_file (s : ServerState) (username filename : String) :
    Except Err Unit × ServerState :=
  match lookupKey filename s.files with
  | none => (.error .notFound, s)
  | some fd =>
    if fd.owner ≠ username then (.error .accessDenied, s)
    else (.ok (), { s with files := eraseKey filename s.files })

/-- One client request against the server, carrying the caller identity that
the JWT layer would resolve for protected endpoints. -/
inductive Op where
  | register (username password : String)
  | login (username password : String)
  | listFiles (caller : String)
  | upload (caller : String) (fileArg : Option String)
  | download (caller filename : String)
  | share (caller filename target : String)
  | revoke (caller filename target : String)
  | delete (caller filename : String)
deriving Repr, DecidableEq

/-- Dispatch one request to its endpoint (`get_files` is read-only, so
`listFiles` returns the state unchanged; its payload is `get_files`). -/
def runOp (s : ServerState) : Op → Except Err Unit × ServerState
  | .register u p => register s u p
  | .login u p => login s u p
  | .listFiles _ => (.ok (), s)
  | .upload c f => upload_file s c f
  | .download c f => download_file s c f
  | .share c f t => share_file s c f t
  | .revoke c f t => revoke_access s c f t
  | .delete c f => delete_file s c f

/-- The state after one request. -/
def applyOp (s : ServerState) (op : Op) : ServerState := (runOp s op).2

/-- The state after a sequence of requests. -/
def runOps (s : ServerState) (ops : List Op) : ServerState := ops.foldl applyOp s

/-- The empty initial state (`users = {}`, `files = {}`). -/
def initState : ServerState := ⟨[], []⟩

/-- A state is reachable if some request sequence produces it from the empty
state. -/
def Reachable (s : ServerState) : Prop := ∃ ops, runOps initState ops = s

/-- Holds except on a `share` request whose caller and target coincide. -/
def noSelfShare : Op → Bool
  | .share c _ t => c ≠ t
  | _ => true

/-- Reachable without any owner ever sharing a file with themselves. -/
def ReachableNoSelfShare (s : ServerState) : Prop :=
  ∃ ops, (∀ op ∈ ops, noSelfShare op = true) ∧ runOps initState ops = s

/-! ## Dictionary lemmas -/

/-- Looking up a key just inserted finds the inserted value. -/
theorem lookupKey_insertKey_self {α : Type} (k : String) (v : α) (l : List (String × α)) :
    lookupKey k (insertKey k v l) = some v := by
  induction l with
  | nil => simp [insertKey, lookupKey]
  | cons hd tl ih =>
    obtain ⟨k', v'⟩ := hd
    by_cases h : k' = k
    · simp [insertKey, h, lookupKey]
    · simp [insertKey, h, lookupKey, ih]

/-- Inserting one key does not change lookups of other keys. -/
theorem lookupKey_insertKey_ne {α : Type} {k' k : String} (h : k' ≠ k) (v : α)
    (l : List (String × α)) :
    lookupKey k' (insertKey k v l) = lookupKey k' l := by
  induction l with
  | nil => simp [insertKey, lookupKey, h.symm]
  | cons hd tl ih =>
    obtain ⟨k'', v''⟩ := hd
    by_cases hk : k'' = k
    · subst hk
      simp [insertKey, lookupKey, h.symm]
    · simp [insertKey, hk, lookupKey, ih]

/-- Every entry of `insertKey k v l` is the new entry or an entry of `l`. -/
theorem mem_insertKey {α : Type} {p : String × α} {k : String} {v : α}
    {l : List (String × α)} (h : p ∈ insertKey k v l) : p = (k, v) ∨ p ∈ l := by
  induction l with
  | nil => simpa [insertKey] using h
  | cons hd tl ih =>
    obtain ⟨k', v'⟩ := hd
    by_cases hk : k' = k
    · simp only [insertKey, if_pos hk, List.mem_cons] at h
      rcases h with h | h
      · exact Or.inl h
      · exact Or.inr (List.mem_cons_of_mem _ h)
    · simp only [insertKey, if_neg hk, List.mem_cons] at h
      rcases h with h | h
      · exact Or.inr (h ▸ List.mem_cons_self _ _)
      · rcases ih h with h2 | h2
        · exact Or.inl h2
        · exact Or.inr (List.mem_cons_of_mem _ h2)

/-- A successful lookup exhibits a dictionary entry. -/
theorem lookupKey_mem {α : Type} {k : String} {v : α} {l : List (String × α)}
    (h : lookupKey k l = some v) : (k, v) ∈ l := by
  induction l with
  | nil => simp [lookupKey] at h
  | cons hd tl ih =>
    obtain ⟨k', v'⟩ := hd
    by_cases hk : k' = k
    · subst hk
      simp only [lookupKey, if_pos rfl] at h
      cases h
      exact List.mem_cons_self _ _
    · simp only [lookupKey, if_neg hk] at h
      exact List.mem_cons_of_mem _ (ih h)

/-- Entries surviving a deletion were entries before it. -/
theorem mem_eraseKey {α : Type} {p : String × α} {k : String} {l : List (String × α)}
    (h : p ∈ eraseKey k l) : p ∈ l :=
  List.mem_of_mem_filter h

/-- Insertion preserves the presence of any key. -/
theorem lookupKey_isSome_insertKey {α : Type} {k' : String} (k : String) (v : α)
    {l : List (String × α)} (h : (lookupKey k' l).isSome) :
    (lookupKey k' (insertKey k v l)).isSome := by
  by_cases hk : k' = k
  · subst hk
    rw [lookupKey_insertKey_self]
    rfl
  · rw [lookupKey_insertKey_ne hk]
    exact h

/-- Any key of `insertKey k v l` is `k` or a key of `l`. -/
theorem mem_keys_insertKey {α : Type} {x k : String} {v : α} {l : List (String × α)}
    (h : x ∈ (insertKey k v l).map Prod.fst) : x = k ∨ x ∈ l.map Prod.fst := by
  rcases List.mem_map.mp h with ⟨p, hp, hfst⟩
  rcases mem_insertKey hp with h1 | h1
  · left
    rw [← hfst, h1]
  · right
    exact hfst ▸ List.mem_map_of_mem _ h1

/-- Insertion preserves duplicate-freeness of the key sequence. -/
theorem keysNodup_insertKey {α : Type} (k : String) (v : α) {l : List (String × α)}
    (h : (l.map Prod.fst).Nodup) : ((insertKey k v l).map Prod.fst).Nodup := by
  induction l with
  | nil => simp [insertKey]
  | cons hd tl ih =>
    obtain ⟨k', v'⟩ := hd
    simp only [List.map_cons, List.nodup_cons] at h
    obtain ⟨hk', htl⟩ := h
    by_cases hk : k' = k
    · subst hk
      have hins : insertKey k' v ((k', v') :: tl) = (k', v) :: tl := by simp [insertKey]
      rw [hins, List.map_cons, List.nodup_cons]
      exact ⟨hk', htl⟩
    · simp only [insertKey, if_neg hk, List.map_cons, List.nodup_cons]
      refine ⟨fun hmem => ?_, ih htl⟩
      rcases mem_keys_insertKey hmem with h1 | h1
      · exact hk h1
      · exact hk' h1

/-- In a dictionary with duplicate-free keys, entries agreeing on the key agree. -/
theorem eq_of_keysNodup {α : Type} {l : List (String × α)} (h : (l.map Prod.fst).Nodup)
    {p q : String × α} (hp : p ∈ l) (hq : q ∈ l) (hk : p.1 = q.1) : p = q := by
  induction l with
  | nil => cases hp
  | cons hd tl ih =>
    simp only [List.map_cons, List.nodup_cons] at h
    rcases List.mem_cons.mp hp with h1 | h1 <;> rcases List.mem_cons.mp hq with h2 | h2
    · rw [h1, h2]
    · subst h1
      refine absurd ?_ h.1
      rw [hk]
      exact List.mem_map_of_mem Prod.fst h2
    · subst h2
      refine absurd ?_ h.1
      rw [← hk]
      exact List.mem_map_of_mem Prod.fst h1
    · exact ih h.2 h1 h2

/-! ## Endpoint shape lemmas: how each endpoint can change the state -/

/-- Either `register` rejects and keeps the state, or it adds the new user. -/
theorem register_state (s : ServerState) (u p : String) :
    (register s u p).2 = s ∨
      (register s u p).2 = { s with users := insertKey u ⟨hashpw p, []⟩ s.users } := by
  unfold register
  split
  · exact Or.inl rfl
  · split
    · exact Or.inl rfl
    · exact Or.inr rfl

/-- The `register` endpoint never touches the `files` dictionary. -/
theorem register_files (s : ServerState) (u p : String) :
    (register s u p).2.files = s.files := by
  rcases register_state s u p with h | h <;> rw [h]

/-- The `login` endpoint never mutates state. -/
theorem login_state (s : ServerState) (u p : String) : (login s u p).2 = s := by
  unfold login
  split
  · rfl
  · split
    · rfl
    · split <;> rfl

/-- The `download_file` endpoint never mutates state. -/
theorem download_state (s : ServerState) (c f : String) :
    (download_file s c f).2 = s := by
  unfold download_file
  split
  · rfl
  · split <;> rfl

/-- Either `upload_file` rejects and keeps the state, or it stores a fresh
record, owned by the caller with no shares, under the sanitized name. -/
theorem upload_state (s : ServerState) (c : String) (f : Option String) :
    (upload_file s c f).2 = s ∨
      ∃ raw, f = some raw ∧
        (upload_file s c f).2 =
          { s with files := insertKey (secure_filename raw) ⟨c, []⟩ s.files } := by
  unfold upload_file
  split
  · exact Or.inl rfl
  · next raw =>
    split
    · exact Or.inl rfl
    · split
      · exact Or.inl rfl
      · exact Or.inr ⟨raw, rfl, rfl⟩

/-- Either `share_file` keeps the state, or the file exists, the caller owns
it, the target is registered and not yet shared, and the target is appended. -/
theorem share_state (s : ServerState) (c f t : String) :
    (share_file s c f t).2 = s ∨
      ∃ fd, lookupKey f s.files = some fd ∧ fd.owner = c ∧
        (lookupKey t s.users).isSome ∧ t ∉ fd.shared_with ∧
        (share_file s c f t).2 =
          { s with files := insertKey f ⟨fd.owner, fd.shared_with ++ [t]⟩ s.files } := by
  unfold share_file
  split
  · exact Or.inl rfl
  · split
    · exact Or.inl rfl
    · next fd heq =>
      split
      · exact Or.inl rfl
      · next ho =>
        split
        · exact Or.inl rfl
        · next hu =>
          split
          · exact Or.inl rfl
          · next hm =>
            refine Or.inr ⟨fd, heq, not_not.mp ho, ?_, hm, rfl⟩
            cases hl : lookupKey t s.users with
            | none => exact absurd (by rw [hl]; rfl) hu
            | some u => rfl

/-- Either `revoke_access` keeps the state, or the file exists, the caller
owns it, the target is currently shared, and its first occurrence is removed. -/
theorem revoke_state (s : ServerState) (c f t : String) :
    (revoke_access s c f t).2 = s ∨
      ∃ fd, lookupKey f s.files = some fd ∧ fd.owner = c ∧ t ∈ fd.shared_with ∧
        (revoke_access s c f t).2 =
          { s with files := insertKey f ⟨fd.owner, fd.shared_with.erase t⟩ s.files } := by
  unfold revoke_access
  split
  · exact Or.inl rfl
  · split
    · exact Or.inl rfl
    · next fd heq =>
      split
      · exact Or.inl rfl
      · next ho =>
        split
        · next hm => exact Or.inr ⟨fd, heq, not_not.mp ho, hm, rfl⟩
        · exact Or.inl rfl

/-- Either `delete_file` keeps the state, or it removes the record. -/
theorem delete_state (s : ServerState) (c f : String) :
    (delete_file s c f).2 = s ∨
      (delete_file s c f).2 = { s with files := eraseKey f s.files } := by
  unfold delete_file
  split
  · exact Or.inl rfl
  · split
    · exact Or.inl rfl
    · exact Or.inr rfl

/-- The `upload_file` endpoint never touches the `users` dictionary. -/
theorem upload_users (s : ServerState) (c : String) (f : Option String) :
    (upload_file s c f).2.users = s.users := by
  rcases upload_state s c f with h | ⟨raw, _, h⟩ <;> rw [h]

/-- The `share_file` endpoint never touches the `users` dictionary. -/
theorem share_users (s : ServerState) (c f t : String) :
    (share_file s c f t).2.users = s.users := by
  rcases share_state s c f t with h | ⟨fd, _, _, _, _, h⟩ <;> rw [h]

/-- The `revoke_access` endpoint never touches the `users` dictionary. -/
theorem revoke_users (s : ServerState) (c f t : String) :
    (revoke_access s c f t).2.users = s.users := by
  rcases revoke_state s c f t with h | ⟨fd, _, _, _, h⟩ <;> rw [h]

/-- The `delete_file` endpoint never touches the `users` dictionary. -/
theorem delete_users (s : ServerState) (c f : String) :
    (delete_file s c f).2.users = s.users := by
  rcases delete_state s c f with h | h <;> rw [h]

/-! ## Reachability invariants -/

/-- Invariant: every `shared_with` list is duplicate-free. -/
def SharedNodup (s : ServerState) : Prop :=
  ∀ p ∈ s.files, p.2.shared_with.Nodup

/-- Invariant: the `files` dictionary has duplicate-free keys. -/
def KeysNodup (s : ServerState) : Prop :=
  (s.files.map Prod.fst).Nodup

/-- Invariant: every username in any `shared_with` list is a registered user. -/
def UsersClosed (s : ServerState) : Prop :=
  ∀ p ∈ s.files, ∀ u ∈ p.2.shared_with, (lookupKey u s.users).isSome

/-- Invariant: no record's owner appears in its own `shared_with` list. -/
def OwnerNotShared (s : ServerState) : Prop :=
  ∀ p ∈ s.files, p.2.owner ∉ p.2.shared_with

/-- One request preserves `SharedNodup`. -/
theorem sharedNodup_step (s : ServerState) (op : Op) (h : SharedNodup s) :
    SharedNodup (applyOp s op) := by
  cases op with
  | register u p =>
    intro q hq
    simp only [applyOp, runOp] at hq
    rw [register_files] at hq
    exact h q hq
  | login u p =>
    intro q hq
    simp only [applyOp, runOp] at hq
    rw [login_state] at hq
    exact h q hq
  | listFiles c => exact h
  | download c f =>
    intro q hq
    simp only [applyOp, runOp] at hq
    rw [download_state] at hq
    exact h q hq
  | upload c f =>
    intro q hq
    simp only [applyOp, runOp] at hq
    rcases upload_state s c f with h2 | ⟨raw, _, h2⟩
    · rw [h2] at hq
      exact h q hq
    · rw [h2] at hq
      rcases mem_insertKey hq with h3 | h3
      · rw [h3]
        exact List.nodup_nil
      · exact h q h3
  | share c f t =>
    intro q hq
    simp only [applyOp, runOp] at hq
    rcases share_state s c f t with h2 | ⟨fd, hl, _, _, hm, h2⟩
    · rw [h2] at hq
      exact h q hq
    · rw [h2] at hq
      rcases mem_insertKey hq with h3 | h3
      · rw [h3]
        show (fd.shared_with ++ [t]).Nodup
        rw [List.nodup_append]
        exact ⟨h _ (lookupKey_mem hl), List.nodup_singleton t, by simpa using hm⟩
      · exact h q h3
  | revoke c f t =>
    intro q hq
    simp only [applyOp, runOp] at hq
    rcases revoke_state s c f t with h2 | ⟨fd, hl, _, _, h2⟩
    · rw [h2] at hq
      exact h q hq
    · rw [h2] at hq
      rcases mem_insertKey hq with h3 | h3
      · rw [h3]
        exact List.Nodup.erase t (h _ (lookupKey_mem hl))
      · exact h q h3
  | delete c f =>
    intro q hq
    simp only [applyOp, runOp] at hq
    rcases delete_state s c f with h2 | h2
    · rw [h2] at hq
      exact h q hq
    · rw [h2] at hq
      exact h q (mem_eraseKey hq)

/-- One request preserves `KeysNodup`. -/
theorem keysNodup_step (s : ServerState) (op : Op) (h : KeysNodup s) :
    KeysNodup (applyOp s op) := by
  cases op with
  | register u p =>
    show ((runOp s (Op.register u p)).2.files.map Prod.fst).Nodup
    simp only [runOp]
    rw [register_files]
    exact h
  | login u p =>
    show ((runOp s (Op.login u p)).2.files.map Prod.fst).Nodup
    simp only [runOp]
    rw [login_state]
    exact h
  | listFiles c => exact h
  | download c f =>
    show ((runOp s (Op.download c f)).2.files.map Prod.fst).Nodup
    simp only [runOp]
    rw [download_state]
    exact h
  | upload c f =>
    show ((runOp s (Op.upload c f)).2.files.map Prod.fst).Nodup
    simp only [runOp]
    rcases upload_state s c f with h2 | ⟨raw, _, h2⟩ <;> rw [h2]
    · exact h
    · exact keysNodup_insertKey _ _ h
  | share c f t =>
    show ((runOp s (Op.share c f t)).2.files.map Prod.fst).Nodup
    simp only [runOp]
    rcases share_state s c f t with h2 | ⟨fd, _, _, _, _, h2⟩ <;> rw [h2]
    · exact h
    · exact keysNodup_insertKey _ _ h
  | revoke c f t =>
    show ((runOp s (Op.revoke c f t)).2.files.map Prod.fst).Nodup
    simp only [runOp]
    rcases revoke_state s c f t with h2 | ⟨fd, _, _, _, h2⟩ <;> rw [h2]
    · exact h
    · exact keysNodup_insertKey _ _ h
  | delete c f =>
    show ((runOp s (Op.delete c f)).2.files.map Prod.fst).Nodup
    simp only [runOp]
    rcases delete_state s c f with h2 | h2 <;> rw [h2]
    · exact h
    · exact List.Nodup.sublist (List.Sublist.map Prod.fst (List.filter_sublist s.files)) h

/-- One request preserves `UsersClosed`: `share_file` only inserts a target it
has checked against the user store, and users are never deleted. -/
theorem usersClosed_step (s : ServerState) (op : Op) (h : UsersClosed s) :
    UsersClosed (applyOp s op) := by
  cases op with
  | register un pw =>
    intro q hq u hu
    simp only [applyOp, runOp] at hq ⊢
    rw [register_files] at hq
    have hin := h q hq u hu
    rcases register_state s un pw with h2 | h2 <;> rw [h2]
    · exact hin
    · exact lookupKey_isSome_insertKey un _ hin
  | login un pw =>
    intro q hq u hu
    simp only [applyOp, runOp] at hq ⊢
    rw [login_state] at hq ⊢
    exact h q hq u hu
  | listFiles c => exact h
  | download c f =>
    intro q hq u hu
    simp only [applyOp, runOp] at hq ⊢
    rw [download_state] at hq ⊢
    exact h q hq u hu
  | upload c f =>
    intro q hq u hu
    simp only [applyOp, runOp] at hq ⊢
    rw [upload_users]
    rcases upload_state s c f with h2 | ⟨raw, _, h2⟩
    · rw [h2] at hq
      exact h q hq u hu
    · rw [h2] at hq
      rcases mem_insertKey hq with h3 | h3
      · rw [h3] at hu
        cases hu
      · exact h q h3 u hu
  | share c f t =>
    intro q hq u hu
    simp only [applyOp, runOp] at hq ⊢
    rw [share_users]
    rcases share_state s c f t with h2 | ⟨fd, hl, _, ht, _, h2⟩
    · rw [h2] at hq
      exact h q hq u hu
    · rw [h2] at hq
      rcases mem_insertKey hq with h3 | h3
      · rw [h3] at hu
        rcases List.mem_append.mp hu with h4 | h4
        · exact h _ (lookupKey_mem hl) u h4
        · rw [List.mem_singleton.mp h4]
          exact ht
      · exact h q h3 u hu
  | revoke c f t =>
    intro q hq u hu
    simp only [applyOp, runOp] at hq ⊢
    rw [revoke_users]
    rcases revoke_state s c f t with h2 | ⟨fd, hl, _, _, h2⟩
    · rw [h2] at hq
      exact h q hq u hu
    · rw [h2] at hq
      rcases mem_insertKey hq with h3 | h3
      · rw [h3] at hu
        exact h _ (lookupKey_mem hl) u (List.mem_of_mem_erase hu)
      · exact h q h3 u hu
  | delete c f =>
    intro q hq u hu
    simp only [applyOp, runOp] at hq ⊢
    rw [delete_users]
    rcases delete_state s c f with h2 | h2
    · rw [h2] at hq
      exact h q hq u hu
    · rw [h2] at hq
      exact h q (mem_eraseKey hq) u hu

/-- A request that is not a self-share preserves `OwnerNotShared`. -/
theorem ownerNotShared_step (s : ServerState) (op : Op) (hop : noSelfShare op = true)
    (h : OwnerNotShared s) : OwnerNotShared (applyOp s op) := by
  cases op with
  | register un pw =>
    intro q hq
    simp only [applyOp, runOp] at hq
    rw [register_files] at hq
    exact h q hq
  | login un pw =>
    intro q hq
    simp only [applyOp, runOp] at hq
    rw [login_state] at hq
    exact h q hq
  | listFiles c => exact h
  | download c f =>
    intro q hq
    simp only [applyOp, runOp] at hq
    rw [download_state] at hq
    exact h q hq
  | upload c f =>
    intro q hq
    simp only [applyOp, runOp] at hq
    rcases upload_state s c f with h2 | ⟨raw, _, h2⟩
    · rw [h2] at hq
      exact h q hq
    · rw [h2] at hq
      rcases mem_insertKey hq with h3 | h3
      · rw [h3]
        exact List.not_mem_nil _
      · exact h q h3
  | share c f t =>
    intro q hq
    simp only [applyOp, runOp] at hq
    rcases share_state s c f t with h2 | ⟨fd, hl, how, _, hm, h2⟩
    · rw [h2] at hq
      exact h q hq
    · rw [h2] at hq
      rcases mem_insertKey hq with h3 | h3
      · rw [h3]
        show fd.owner ∉ fd.shared_with ++ [t]
        intro hmem
        rcases List.mem_append.mp hmem with h4 | h4
        · exact h _ (lookupKey_mem hl) h4
        · have hct : c ≠ t := by simpa [noSelfShare] using hop
          exact hct (how ▸ List.mem_singleton.mp h4)
      · exact h q h3
  | revoke c f t =>
    intro q hq
    simp only [applyOp, runOp] at hq
    rcases revoke_state s c f t with h2 | ⟨fd, hl, _, _, h2⟩
    · rw [h2] at hq
      exact h q hq
    · rw [h2] at hq
      rcases mem_insertKey hq with h3 | h3
      · rw [h3]
        show fd.owner ∉ fd.shared_with.erase t
        intro hmem
        exact h _ (lookupKey_mem hl) (List.mem_of_mem_erase hmem)
      · exact h q h3
  | delete c f =>
    intro q hq
    simp only [applyOp, runOp] at hq
    rcases delete_state s c f with h2 | h2
    · rw [h2] at hq
      exact h q hq
    · rw [h2] at hq
      exact h q (mem_eraseKey hq)

/-- `SharedNodup` holds along any request sequence. -/
theorem sharedNodup_runOps (s : ServerState) (ops : List Op) (h : SharedNodup s) :
    SharedNodup (runOps s ops) := by
  induction ops generalizing s with
  | nil => exact h
  | cons op rest ih => exact ih _ (sharedNodup_step s op h)

/-- `KeysNodup` holds along any request sequence. -/
theorem keysNodup_runOps (s : ServerState) (ops : List Op) (h : KeysNodup s) :
    KeysNodup (runOps s ops) := by
  induction ops generalizing s with
  | nil => exact h
  | cons op rest ih => exact ih _ (keysNodup_step s op h)

/-- `UsersClosed` holds along any request sequence. -/
theorem usersClosed_runOps (s : ServerState) (ops : List Op) (h : UsersClosed s) :
    UsersClosed (runOps s ops) := by
  induction ops generalizing s with
  | nil => exact h
  | cons op rest ih => exact ih _ (usersClosed_step s op h)

/-- `OwnerNotShared` holds along any self-share-free request sequence. -/
theorem ownerNotShared_runOps (s : ServerState) (ops : List Op)
    (hops : ∀ op ∈ ops, noSelfShare op = true) (h : OwnerNotShared s) :
    OwnerNotShared (runOps s ops) := by
  induction ops generalizing s with
  | nil => exact h
  | cons op rest ih =>
    exact ih _ (fun o ho => hops o (List.mem_cons_of_mem _ ho))
      (ownerNotShared_step s op (hops op (List.mem_cons_self _ _)) h)

/-- Every reachable state has duplicate-free `shared_with` lists. -/
theorem reachable_sharedNodup {s : ServerState} (h : Reachable s) : SharedNodup s := by
  obtain ⟨ops, rfl⟩ := h
  exact sharedNodup_runOps initState ops (fun p hp => absurd hp (List.not_mem_nil p))

/-- With duplicate-free keys and no owner inside their own share list, the two
sequences of `get_files` are disjoint. -/
theorem get_files_disjoint (s : ServerState) (hkeys : KeysNodup s)
    (hosh : OwnerNotShared s) (caller : String) :
    ∀ n ∈ (get_files s caller).1, n ∉ (get_files s caller).2 := by
  intro n h1 h2
  simp only [get_files, List.mem_map, List.mem_filter, decide_eq_true_eq] at h1 h2
  obtain ⟨p, ⟨hpmem, hpo⟩, hpn⟩ := h1
  obtain ⟨q, ⟨hqmem, hqs⟩, hqn⟩ := h2
  have hpq : p = q := eq_of_keysNodup hkeys hpmem hqmem (by rw [hpn, hqn])
  subst hpq
  rw [← hpo] at hqs
  exact hosh p hpmem hqs

/-- Either `register` succeeds or it leaves the state untouched. -/
theorem register_ok_or_same (s : ServerState) (u p : String) :
    (register s u p).1 = .ok () ∨ (register s u p).2 = s := by
  unfold register
  split
  · exact Or.inr rfl
  · split
    · exact Or.inr rfl
    · exact Or.inl rfl

/-- Either `upload_file` succeeds or it leaves the state untouched. -/
theorem upload_ok_or_same (s : ServerState) (c : String) (f : Option String) :
    (upload_file s c f).1 = .ok () ∨ (upload_file s c f).2 = s := by
  unfold upload_file
  split
  · exact Or.inr rfl
  · split
    · exact Or.inr rfl
    · split
      · exact Or.inr rfl
      · exact Or.inl rfl

/-- Either `share_file` succeeds or it leaves the state untouched. -/
theorem share_ok_or_same (s : ServerState) (c f t : String) :
    (share_file s c f t).1 = .ok () ∨ (share_file s c f t).2 = s := by
  unfold share_file
  split
  · exact Or.inr rfl
  · split
    · exact Or.inr rfl
    · split
      · exact Or.inr rfl
      · split
        · exact Or.inr rfl
        · split
          · exact Or.inl rfl
          · exact Or.inl rfl

/-- Either `revoke_access` succeeds or it leaves the state untouched. -/
theorem revoke_ok_or_same (s : ServerState) (c f t : String) :
    (revoke_access s c f t).1 = .ok () ∨ (revoke_access s c f t).2 = s := by
  unfold revoke_access
  split
  · exact Or.inr rfl
  · split
    · exact Or.inr rfl
    · split
      · exact Or.inr rfl
      · split
        · exact Or.inl rfl
        · exact Or.inl rfl

/-- Either `delete_file` succeeds or it leaves the state untouched. -/
theorem delete_ok_or_same (s : ServerState) (c f : String) :
    (delete_file s c f).1 = .ok () ∨ (delete_file s c f).2 = s := by
  unfold delete_file
  split
  · exact Or.inr rfl
  · split
    · exact Or.inr rfl
    · exact Or.inl rfl

/-- Running `share_file` a second time with the same arguments does not change
the state any further, whatever the starting state. -/
theorem share_file_idem (s : ServerState) (c f t : String) :
    (share_file (share_file s c f t).2 c f t).2 = (share_file s c f t).2 := by
  by_cases he : f = "" ∨ t = ""
  · simp [share_file, he]
  · cases hl : lookupKey f s.files with
    | none => simp [share_file, he, hl]
    | some fd =>
      by_cases ho : fd.owner ≠ c
      · simp [share_file, he, hl, ho]
      · by_cases hu : (lookupKey t s.users).isNone
        · simp [share_file, he, hl, ho, hu]
        · by_cases hm : t ∈ fd.shared_with
          · simp [share_file, he, hl, ho, hu, hm]
          · simp [share_file, he, hl, ho, hu, hm, lookupKey_insertKey_self]

/-- Running `revoke_access` a second time with the same arguments does not
change the state any further, given duplicate-free share lists. -/
theorem revoke_access_idem (s : ServerState) (hnd : SharedNodup s) (c f t : String) :
    (revoke_access (revoke_access s c f t).2 c f t).2 = (revoke_access s c f t).2 := by
  by_cases he : f = "" ∨ t = ""
  · simp [revoke_access, he]
  · cases hl : lookupKey f s.files with
    | none => simp [revoke_access, he, hl]
    | some fd =>
      by_cases ho : fd.owner ≠ c
      · simp [revoke_access, he, hl, ho]
      · by_cases hm : t ∈ fd.shared_with
        · have hnm : t ∉ fd.shared_with.erase t :=
            List.Nodup.not_mem_erase (hnd _ (lookupKey_mem hl))
          simp [revoke_access, he, hl, ho, hm, lookupKey_insertKey_self, hnm]
        · simp [revoke_access, he, hl, ho, hm]

/-! ## Concrete request traces used as witnesses and counterexamples -/

/-- Trace: alice registers, uploads `f.txt`, then shares it with herself. -/
def selfShareOps : List Op :=
  [.register "alice" "pw", .upload "alice" (some "f.txt"),
   .share "alice" "f.txt" "alice"]

/-- The state reached by `selfShareOps`. -/
def selfShareState : ServerState := runOps initState selfShareOps

/-- Trace: alice and bob register, alice uploads `a.txt` and shares it with
bob; no self-share occurs. -/
def demoOps : List Op :=
  [.register "alice" "pw", .register "bob" "pw", .upload "alice" (some "a.txt"),
   .share "alice" "a.txt" "bob"]

/-- The state reached by `demoOps`. -/
def demoState : ServerState := runOps initState demoOps

/-- State with alice, bob and carol registered and `a.txt` owned by alice. -/
def ownedState : ServerState := runOps initState
  [.register "alice" "pw", .register "bob" "pw", .register "carol" "pw",
   .upload "alice" (some "a.txt")]

/-- State with carol registered and no file records at all. -/
def noFileState : ServerState := runOps initState [.register "carol" "pw"]

/-- State whose registry already holds `a.txt` owned by bob, shared with carol. -/
def preOwnedState : ServerState := ⟨[], [("a.txt", ⟨"bob", ["carol"]⟩)]⟩

/-! ## Claim theorems -/

/-- C1, counterexample: the claimed invariant fails on the code.  The state
after `selfShareOps` is reachable, yet its record for `f.txt` has owner alice
with alice inside `shared_with`: `share_file` lets the owner share a file with
themselves, since the target-membership test is against `users`, never against
the owner. -/
theorem C1_counterexample :
    Reachable selfShareState ∧
    lookupKey "f.txt" selfShareState.files = some ⟨"alice", ["alice"]⟩ ∧
    (FileRecord.mk "alice" ["alice"]).owner ∈
      (FileRecord.mk "alice" ["alice"]).shared_with :=
  ⟨⟨selfShareOps, rfl⟩, by decide, by decide⟩

/-- C1, amended: for every state reachable by a sequence of operations in
which no `share` has caller equal to target, no file record's `shared_with`
set contains the record's owner. -/
theorem C1_owner_not_in_sharedWith (s : ServerState) (hs : ReachableNoSelfShare s) :
    ∀ p ∈ s.files, p.2.owner ∉ p.2.shared_with := by
  obtain ⟨ops, hops, rfl⟩ := hs
  exact ownerNotShared_runOps initState ops hops
    (fun p hp => absurd hp (List.not_mem_nil p))

/-- Witness for C1: evaluated on the state after `demoOps`, where `a.txt` is
owned by alice and shared with bob. -/
theorem C1_witness :
    (FileRecord.mk "alice" ["bob"]).owner ∉ (FileRecord.mk "alice" ["bob"]).shared_with :=
  C1_owner_not_in_sharedWith demoState ⟨demoOps, by decide, rfl⟩
    ("a.txt", FileRecord.mk "alice" ["bob"]) (by decide)

/-- C2, counterexample: when no record for `a.txt` exists, `share_file` and
`revoke_access` by non-owner carol fail with `NotFound`, not `AccessDenied` —
the existence check at server.py line 160 (resp. 185) fires before the
ownership check at line 163 (resp. 188). -/
theorem C2_counterexample :
    Reachable noFileState ∧ lookupKey "a.txt" noFileState.files = none ∧
    (share_file noFileState "carol" "a.txt" "bob").1 = .error .notFound ∧
    (revoke_access noFileState "carol" "a.txt" "bob").1 = .error .notFound ∧
    Err.notFound ≠ Err.accessDenied :=
  ⟨⟨[Op.register "carol" "pw"], rfl⟩, by decide, by decide, by decide, by decide⟩

/-- C2, amended: for a non-empty target, `Share` and `Revoke` on `a.txt` by a
caller who does not own it fail with `AccessDenied` when a record for `a.txt`
exists, and with `NotFound` when it does not. -/
theorem C2_nonowner_share_revoke (s : ServerState) (caller target : String)
    (ht : target ≠ "") :
    (∀ fd, lookupKey "a.txt" s.files = some fd → fd.owner ≠ caller →
      (share_file s caller "a.txt" target).1 = .error .accessDenied ∧
      (revoke_access s caller "a.txt" target).1 = .error .accessDenied) ∧
    (lookupKey "a.txt" s.files = none →
      (share_file s caller "a.txt" target).1 = .error .notFound ∧
      (revoke_access s caller "a.txt" target).1 = .error .notFound) := by
  constructor
  · intro fd hfd hne
    constructor
    · simp [share_file, ht, hfd, hne]
    · simp [revoke_access, ht, hfd, hne]
  · intro hnone
    constructor
    · simp [share_file, ht, hnone]
    · simp [revoke_access, ht, hnone]

/-- Witness for C2: in `ownedState`, `a.txt` belongs to alice, so carol's
share and revoke attempts are rejected with `AccessDenied`. -/
theorem C2_witness :
    (share_file ownedState "carol" "a.txt" "bob").1 = .error .accessDenied ∧
    (revoke_access ownedState "carol" "a.txt" "bob").1 = .error .accessDenied :=
  (C2_nonowner_share_revoke ownedState "carol" "bob" (by decide)).1
    ⟨"alice", []⟩ (by decide) (by decide)

/-- C3, counterexample: with no record for `a.txt`, `share_file` with an empty
target fails with `InvalidInput`, not `NotFound` — the missing-field check at
server.py line 157 fires before the existence check at line 160, so not every
operation on a missing file yields `NotFound`. -/
theorem C3_counterexample :
    lookupKey "a.txt" initState.files = none ∧
    (share_file initState "alice" "a.txt" "").1 = .error .invalidInput ∧
    Err.invalidInput ≠ Err.notFound :=
  ⟨rfl, by decide, by decide⟩

/-- C3, amended: for every caller and file name with no record, `Download` and
`Delete` fail with `NotFound`; `Share` and `Revoke` fail with `NotFound`
provided the name and target are non-empty (an empty field yields
`InvalidInput` first); and none of the four ever fails with `AccessDenied` —
the existence check precedes the ownership check. -/
theorem C3_missing_file_notFound (s : ServerState) (caller name target : String)
    (h : lookupKey name s.files = none) :
    (download_file s caller name).1 = .error .notFound ∧
    (delete_file s caller name).1 = .error .notFound ∧
    (name ≠ "" → target ≠ "" →
      (share_file s caller name target).1 = .error .notFound ∧
      (revoke_access s caller name target).1 = .error .notFound) ∧
    (download_file s caller name).1 ≠ .error .accessDenied ∧
    (delete_file s caller name).1 ≠ .error .accessDenied ∧
    (share_file s caller name target).1 ≠ .error .accessDenied ∧
    (revoke_access s caller name target).1 ≠ .error .accessDenied := by
  refine ⟨by simp [download_file, h], by simp [delete_file, h], ?_, ?_, ?_, ?_, ?_⟩
  · intro hn ht
    exact ⟨by simp [share_file, hn, ht, h], by simp [revoke_access, hn, ht, h]⟩
  · simp [download_file, h]
  · simp [delete_file, h]
  · by_cases he : name = "" ∨ target = "" <;> simp [share_file, he, h]
  · by_cases he : name = "" ∨ target = "" <;> simp [revoke_access, he, h]

/-- Witness for C3: evaluated at the empty state, where no `a.txt` exists. -/
theorem C3_witness :
    (download_file initState "carol" "a.txt").1 = .error .notFound ∧
    (share_file initState "carol" "a.txt" "bob").1 = .error .notFound :=
  ⟨(C3_missing_file_notFound initState "carol" "a.txt" "bob" rfl).1,
   ((C3_missing_file_notFound initState "carol" "a.txt" "bob" rfl).2.2.1
      (by decide) (by decide)).1⟩

/-- C4, counterexample: the two sequences of `List` are not always disjoint.
In the reachable state after `selfShareOps`, `f.txt` appears both among
alice's owned files and among the files shared with alice. -/
theorem C4_counterexample :
    Reachable selfShareState ∧
    "f.txt" ∈ (get_files selfShareState "alice").1 ∧
    "f.txt" ∈ (get_files selfShareState "alice").2 :=
  ⟨⟨selfShareOps, rfl⟩, by decide, by decide⟩

/-- C4, amended: in every state reachable without a self-share, the owned and
shared sequences returned by `get_files` are disjoint. -/
theorem C4_list_disjoint (s : ServerState) (hs : ReachableNoSelfShare s)
    (caller : String) :
    ∀ n ∈ (get_files s caller).1, n ∉ (get_files s caller).2 := by
  obtain ⟨ops, hops, rfl⟩ := hs
  exact get_files_disjoint _
    (keysNodup_runOps initState ops List.nodup_nil)
    (ownerNotShared_runOps initState ops hops
      (fun p hp => absurd hp (List.not_mem_nil p)))
    caller

/-- Witness for C4: evaluated on the state after `demoOps` for caller alice. -/
theorem C4_witness : "a.txt" ∉ (get_files demoState "alice").2 :=
  C4_list_disjoint demoState ⟨demoOps, by decide, rfl⟩ "alice" "a.txt" (by decide)

/-- Sanitizing the empty filename gives the empty string. -/
theorem secure_filename_empty : secure_filename "" = "" := by decide

/-- C5: an upload whose sanitized name is non-empty (the claim's scope; the
raw name is then non-empty too) succeeds and leaves a record under the
sanitized name owned by the caller with an empty share list — replacing any
prior record, its owner and its shares. -/
theorem C5_upload_creates_record (s : ServerState) (caller rawName : String)
    (h : secure_filename rawName ≠ "") :
    (upload_file s caller (some rawName)).1 = .ok () ∧
    lookupKey (secure_filename rawName)
        (upload_file s caller (some rawName)).2.files = some ⟨caller, []⟩ := by
  have hraw : rawName ≠ "" := fun hr => h (by rw [hr, secure_filename_empty])
  refine ⟨by simp [upload_file, hraw, h], ?_⟩
  simp [upload_file, hraw, h, lookupKey_insertKey_self]

/-- Witness for C5: alice uploads `a.txt` over a record owned by bob and
shared with carol; the record becomes alice's with no shares. -/
theorem C5_witness :
    (upload_file preOwnedState "alice" (some "a.txt")).1 = .ok () ∧
    lookupKey (secure_filename "a.txt")
        (upload_file preOwnedState "alice" (some "a.txt")).2.files =
      some ⟨"alice", []⟩ :=
  C5_upload_creates_record preOwnedState "alice" "a.txt" (by decide)

/-- C6: an owner-called `Share` on an existing file with non-empty arguments
fails with `NotFound` and leaves the state unchanged when the target is not a
registered user, whereas `Revoke` under the same conditions succeeds. -/
theorem C6_share_unregistered_target (s : ServerState) (caller name target : String)
    (fd : FileRecord) (hn : name ≠ "") (ht : target ≠ "")
    (hf : lookupKey name s.files = some fd) (how : fd.owner = caller)
    (hu : lookupKey target s.users = none) :
    share_file s caller name target = (.error .notFound, s) ∧
    (revoke_access s caller name target).1 = .ok () := by
  constructor
  · simp [share_file, hn, ht, hf, how, hu]
  · by_cases hm : target ∈ fd.shared_with <;>
      simp [revoke_access, hn, ht, hf, how, hm]

/-- Witness for C6: in `ownedState`, dave is not registered; alice's share of
`a.txt` with dave fails with `NotFound` while her revoke succeeds. -/
theorem C6_witness :
    share_file ownedState "alice" "a.txt" "dave" = (.error .notFound, ownedState) ∧
    (revoke_access ownedState "alice" "a.txt" "dave").1 = .ok () :=
  C6_share_unregistered_target ownedState "alice" "a.txt" "dave" ⟨"alice", []⟩
    (by decide) (by decide) (by decide) (by decide) (by decide)

/-- C7: on every reachable state, performing `Share` twice with the same
arguments yields the same final state as performing it once, and likewise for
`Revoke` (re-sharing an already-shared user or revoking a non-shared user is a
no-op, not an error). -/
theorem C7_share_revoke_idempotent (s : ServerState) (hs : Reachable s)
    (caller name target : String) :
    (share_file (share_file s caller name target).2 caller name target).2 =
      (share_file s caller name target).2 ∧
    (revoke_access (revoke_access s caller name target).2 caller name target).2 =
      (revoke_access s caller name target).2 :=
  ⟨share_file_idem s caller name target,
   revoke_access_idem s (reachable_sharedNodup hs) caller name target⟩

/-- Witness for C7: evaluated at the empty state (reachable by the empty
trace) with concrete arguments. -/
theorem C7_witness :
    (share_file (share_file initState "alice" "a.txt" "bob").2
        "alice" "a.txt" "bob").2 =
      (share_file initState "alice" "a.txt" "bob").2 ∧
    (revoke_access (revoke_access initState "alice" "a.txt" "bob").2
        "alice" "a.txt" "bob").2 =
      (revoke_access initState "alice" "a.txt" "bob").2 :=
  C7_share_revoke_idempotent initState ⟨[], rfl⟩ "alice" "a.txt" "bob"

/-- C8: whenever an operation returns an error of any kind, the user store and
the file-metadata store are exactly as they were before the call. -/
theorem C8_errors_leave_state_unchanged (s : ServerState) (op : Op) (e : Err)
    (h : (runOp s op).1 = .error e) : (runOp s op).2 = s := by
  cases op with
  | register u p =>
    rcases register_ok_or_same s u p with hok | hsame
    · rw [show (runOp s (Op.register u p)).1 = (register s u p).1 from rfl, hok] at h
      cases h
    · exact hsame
  | login u p => exact login_state s u p
  | listFiles c => rfl
  | upload c f =>
    rcases upload_ok_or_same s c f with hok | hsame
    · rw [show (runOp s (Op.upload c f)).1 = (upload_file s c f).1 from rfl, hok] at h
      cases h
    · exact hsame
  | download c f => exact download_state s c f
  | share c f t =>
    rcases share_ok_or_same s c f t with hok | hsame
    · rw [show (runOp s (Op.share c f t)).1 = (share_file s c f t).1 from rfl, hok] at h
      cases h
    · exact hsame
  | revoke c f t =>
    rcases revoke_ok_or_same s c f t with hok | hsame
    · rw [show (runOp s (Op.revoke c f t)).1 = (revoke_access s c f t).1 from rfl,
        hok] at h
      cases h
    · exact hsame
  | delete c f =>
    rcases delete_ok_or_same s c f with hok | hsame
    · rw [show (runOp s (Op.delete c f)).1 = (delete_file s c f).1 from rfl, hok] at h
      cases h
    · exact hsame

/-- Witness for C8: registering with an empty username fails with
`InvalidInput` and the empty state is returned untouched. -/
theorem C8_witness : (runOp initState (Op.register "" "pw")).2 = initState :=
  C8_errors_leave_state_unchanged initState (Op.register "" "pw") Err.invalidInput
    (by decide)

/-- C9, counterexample: at the claim's own example `..` the upload does not
succeed and creates no record.  The raw name `..` is non-empty, so it passes
the emptiness check, and `secure_filename` collapses it to the empty string —
but then `file.save` targets `uploads/` itself and raises `IsADirectoryError`
(server.py line 124) before the metadata assignment at line 127: the request
fails with an internal error and the state is unchanged. -/
theorem C9_counterexample :
    secure_filename ".." = "" ∧ (".." : String) ≠ "" ∧
    (upload_file initState "alice" (some "..")).1 = .error .internalError ∧
    (upload_file initState "alice" (some "..")).2 = initState := by
  decide

/-- C9, amended: for every non-empty raw name whose sanitization is empty,
the upload passes the emptiness check — which is applied to the raw name
before sanitization, never after — and then fails with an internal error (the
`IsADirectoryError` from `file.save` at `uploads/`), not with `InvalidInput`,
leaving the state unchanged: no record keyed by the empty string is created. -/
theorem C9_empty_sanitized_upload (s : ServerState) (caller rawName : String)
    (hraw : rawName ≠ "") (hsan : secure_filename rawName = "") :
    upload_file s caller (some rawName) = (.error .internalError, s) ∧
    Err.internalError ≠ Err.invalidInput := by
  refine ⟨?_, by decide⟩
  simp [upload_file, hraw, hsan]

/-- Witness for C9: evaluated at the raw name `..` on the empty state. -/
theorem C9_witness :
    upload_file initState "alice" (some "..") = (.error .internalError, initState) ∧
    Err.internalError ≠ Err.invalidInput :=
  C9_empty_sanitized_upload initState "alice" ".." (by decide) (by decide)

/-- C10: in every reachable state, every username in any record's
`shared_with` list is a key of the user store: `share_file` only inserts
registered users, users are never deleted, and no other operation inserts into
`shared_with`. -/
theorem C10_sharedWith_users_registered (s : ServerState) (hs : Reachable s) :
    ∀ p ∈ s.files, ∀ u ∈ p.2.shared_with, (lookupKey u s.users).isSome := by
  obtain ⟨ops, rfl⟩ := hs
  exact usersClosed_runOps initState ops
    (fun p hp => absurd hp (List.not_mem_nil p))

/-- Witness for C10: in the state after `demoOps`, bob appears in the share
list of `a.txt` and is indeed registered. -/
theorem C10_witness : (lookupKey "bob" demoState.users).isSome :=
  C10_sharedWith_users_registered demoState ⟨demoOps, rfl⟩
    ("a.txt", FileRecord.mk "alice" ["bob"]) (by decide) "bob" (by decide)
